import Mathlib

/-!
# Verification of the tooled-prompt tool-calling conversation loop

Shallow embedding of the core of the `tooled-prompt` repository:

* `src/executor.ts` — the tool loop (`runToolLoop`), iterable result
  resolution (`resolveIterableResult`), result canonicalization and
  truncation, positional argument dispatch;
* `src/store.ts` — `createStore` (structured-output store);
* `src/types.ts` — `createSimpleSchemaParser` (flat string-map schemas);
* `src/providers/{openai,anthropic,ollama}.ts` — `parseResponse`
  (streaming and non-streaming) and `buildRequest`.

Modelling conventions, used throughout:

* JavaScript values that the code manipulates as parsed JSON are modelled
  by the inductive `JValue`; a JS object is an association list of fields
  whose lookup (`jlookup`) takes the *last* binding, matching the
  last-wins semantics of duplicate keys in object construction.
  `undefined` is modelled as `Option.none` wherever the code can observe
  it (absent object properties, absent positional arguments).
* Functions that can `throw` are modelled with `Except String`.
* The mutable slot of a structured-output store is modelled by explicit
  state passing: a value of type `Option JValue` threaded through the
  loop (`none` = the slot is still empty / `undefined`).
* `JSON.stringify` is modelled by `stringify`; string escaping handles the
  quote, backslash and common control characters, which covers every
  string the verified properties touch.
-/

/-- A parsed JSON value (the result of `JSON.parse`), as manipulated by the
executor and the schema parsers. A JS object is a list of fields; duplicate
keys resolve last-wins via `jlookup`. -/
inductive JValue where
  | null
  | bool (b : Bool)
  | num (n : Int)
  | str (s : String)
  | arr (xs : List JValue)
  | obj (fields : List (String × JValue))
deriving Repr

/-- Property lookup `o[k]` on a JS object: the last binding for `k`, or
`none` (i.e. `undefined`) when the key is absent. -/
def jlookup (fields : List (String × JValue)) (k : String) : Option JValue :=
  (fields.reverse.find? (fun f => f.1 == k)).map (fun f => f.2)

/-- Property access `v[k]` on an arbitrary parsed JSON value: objects use
field lookup, every other value yields `undefined`. -/
def jsGet : JValue → String → Option JValue
  | .obj fields, k => jlookup fields k
  | _, _ => none

/-- The JS `typeof` operator restricted to parsed JSON values (as used in the
simple-schema validation error message). -/
def jsTypeof : JValue → String
  | .null => "object"
  | .bool _ => "boolean"
  | .num _ => "number"
  | .str _ => "string"
  | .arr _ => "object"
  | .obj _ => "object"

/-- JS truthiness of a parsed JSON value (`null`, `false`, `0` and `""` are
falsy). -/
def jsTruthy : JValue → Bool
  | .null => false
  | .bool b => b
  | .num n => n != 0
  | .str s => s != ""
  | .arr _ => true
  | .obj _ => true

/-- Escape one character as inside a JSON string literal. -/
def escapeJsonChar (c : Char) : String :=
  if c = '"' then "\\\""
  else if c = '\\' then "\\\\"
  else if c = '\n' then "\\n"
  else if c = '\t' then "\\t"
  else if c = '\r' then "\\r"
  else String.singleton c

/-- Escape a string as inside a JSON string literal. -/
def escapeJson (s : String) : String :=
  String.join (s.toList.map escapeJsonChar)

/-- A JSON string literal: `"..."` with escaping. -/
def quoteJson (s : String) : String := "\"" ++ escapeJson s ++ "\""

mutual

/-- Model of `JSON.stringify` on parsed JSON values (compact output, no
spaces, fields in list order — matching V8's insertion-order semantics). -/
def stringify : JValue → String
  | .null => "null"
  | .bool true => "true"
  | .bool false => "false"
  | .num n => toString n
  | .str s => quoteJson s
  | .arr xs => "[" ++ stringifyArr xs ++ "]"
  | .obj fs => "\x7b" ++ stringifyObj fs ++ "\x7d"

/-- Comma-separated serialization of array elements. -/
def stringifyArr : List JValue → String
  | [] => ""
  | [v] => stringify v
  | v :: rest => stringify v ++ "," ++ stringifyArr rest

/-- Comma-separated serialization of object fields. -/
def stringifyObj : List (String × JValue) → String
  | [] => ""
  | [(k, v)] => quoteJson k ++ ":" ++ stringify v
  | (k, v) :: rest => quoteJson k ++ ":" ++ stringify v ++ "," ++ stringifyObj rest

end

-- ===========================================================================
-- Simple string-map schemas (src/types.ts)
-- ===========================================================================

/-- A flat string-map schema: field name (a trailing `?` marks the field
optional) paired with its description. Models the `SimpleSchema` record;
the list order is the object's key order. -/
def SimpleSchema := List (String × String)

/-- One analysed schema field: the key with the optional marker stripped, and
its optionality. Models the `fields` array precomputed by
`createSimpleSchemaParser`. -/
structure SimpleField where
  cleanKey : String
  optional : Bool
deriving Repr, DecidableEq

/-- `key.endsWith('?')` specialised to the one-character marker, expressed
over the string's character list (extensionally the same test, and unlike
`String.endsWith` it evaluates inside the kernel). -/
def strEndsWithQm (s : String) : Bool :=
  match s.data.getLast? with
  | some c => c = '?'
  | none => false

/-- `key.slice(0, -1)`: the string without its last character. -/
def strDropLast (s : String) : String :=
  String.mk s.data.dropLast

/-- `createSimpleSchemaParser`'s field analysis: strip a trailing `?` and
record optionality (src/types.ts lines 146-151). -/
def simpleFields (simple : SimpleSchema) : List SimpleField :=
  simple.map (fun f =>
    if strEndsWithQm f.1 then ⟨strDropLast f.1, true⟩ else ⟨f.1, false⟩)

/-- The per-field loop of the parser returned by `createSimpleSchemaParser`
(src/types.ts lines 160-173): a property that is `undefined` or `null`
counts as absent (fatal for required fields, skipped for optional ones), a
string is copied into the result, anything else is a validation failure. -/
def simpleParseFields (obj : List (String × JValue)) :
    List SimpleField → Except String (List (String × String))
  | [] => .ok []
  | f :: fs =>
    match jlookup obj f.cleanKey with
    | none =>
      if f.optional then simpleParseFields obj fs
      else .error ("Missing required field: \"" ++ f.cleanKey ++ "\"")
    | some .null =>
      if f.optional then simpleParseFields obj fs
      else .error ("Missing required field: \"" ++ f.cleanKey ++ "\"")
    | some (.str s) =>
      (simpleParseFields obj fs).map (fun r => (f.cleanKey, s) :: r)
    | some v =>
      .error ("Field \"" ++ f.cleanKey ++ "\" must be a string, got " ++ jsTypeof v)

/-- The parser returned by `createSimpleSchemaParser` (src/types.ts lines
153-175): reject `null`, arrays and non-objects outright, then validate
field by field. The result is the assembled `result` object, as an
association list in field-declaration order. -/
def createSimpleSchemaParser (simple : SimpleSchema) (data : JValue) :
    Except String (List (String × String)) :=
  match data with
  | .obj fields => simpleParseFields fields (simpleFields simple)
  | _ => .error "Expected an object"

-- ===========================================================================
-- Tool result canonicalization (src/executor.ts)
-- ===========================================================================

/-- The raw value returned by an invoked tool, after awaiting it.
`undef` is JS `undefined`; `value v` is a plain value (including `null`,
strings and arrays); `syncIter`/`asyncIter` are iterable objects that are
neither strings nor arrays, identified by their yielded items. -/
inductive ToolRet where
  | undef
  | value (v : JValue)
  | syncIter (items : List JValue)
  | asyncIter (items : List JValue)
deriving Repr

/-- A tool result after iterable resolution: no iterables remain. -/
inductive ResolvedRet where
  | undef
  | value (v : JValue)
deriving Repr

/-- `resolveIterableResult` (src/executor.ts lines 134-149): `null`-ish
values, strings and arrays pass through unchanged (the early return guards
them from the iterator checks — a JS string is iterable but must not be
drained); an async iterable is drained into an array, then a sync iterable;
every other value passes through. -/
def resolveIterableResult : ToolRet → ResolvedRet
  | .undef => .undef
  | .value v => .value v
  | .asyncIter items => .value (.arr items)
  | .syncIter items => .value (.arr items)

/-- Canonicalization of a tool's return value into the result string
(src/executor.ts lines 317-327): resolve iterables, then `undefined`/`null`
become the sentinel `"OK"`, a string passes through untouched, and anything
else is JSON-stringified. -/
def canonicalizeResult (r : ToolRet) : String :=
  match resolveIterableResult r with
  | .undef => "OK"
  | .value .null => "OK"
  | .value (.str s) => s
  | .value v => stringify v

/-- Result truncation (src/executor.ts lines 332-337): when
`maxToolResultLength` is configured (and non-zero — `0` is falsy in the JS
guard) and the result is longer, keep the prefix and append a marker naming
the original length. -/
def truncateResult (maxLen : Option Nat) (s : String) : String :=
  match maxLen with
  | some l =>
    if l ≠ 0 ∧ s.length > l then
      s.take l ++ "\n... (truncated, " ++ toString s.length ++ " total chars)"
    else s
  | none => s

-- ===========================================================================
-- Tool calls and dispatch (src/executor.ts)
-- ===========================================================================

/-- A tool call parsed out of a provider response (`ToolCallInfo`,
src/providers/types.ts). The raw `arguments` string is modelled by the
outcome of `JSON.parse` on it: `.ok v` when it parses to the value `v`,
`.error m` when `JSON.parse` throws with message `m` (the parser itself is
a host-runtime primitive). -/
structure ToolCallInfo where
  id : String
  name : String
  arguments : Except String JValue
deriving Repr

/-- A tool result as appended to history (`ToolResultInfo`,
src/providers/types.ts): the correlation id, the tool name, and the
canonicalized result string. -/
structure ToolResultInfo where
  id : String
  name : String
  result : String
deriving Repr, DecidableEq

/-- A registered tool as the loop sees it: the metadata name, the declared
`parameters.properties` key order, and the callable. The callable receives
the positional argument list (`none` = `undefined` at that position) and the
structured-output slot, and returns either a value or a thrown error
message, together with the possibly-updated slot (only a store writes it). -/
structure RegTool where
  name : String
  propKeys : List String
  impl : List (Option JValue) → Option JValue → Except String ToolRet × Option JValue

/-- Positional argument mapping (src/executor.ts lines 314-315):
`Object.keys(parameters.properties)` gives the declared order, and each
declared name selects its property from the parsed arguments object —
absent keys yield `undefined`. -/
def mapArguments (propKeys : List String) (input : JValue) : List (Option JValue) :=
  propKeys.map (fun k => jsGet input k)

/-- The error-shaped tool-result payload `JSON.stringify({ error: msg })`. -/
def errorPayload (msg : String) : String :=
  stringify (.obj [("error", .str msg)])

/-- Dispatch of one tool call (src/executor.ts lines 278-352, one loop
body): find the callable by exact name; an unknown name synthesizes an
error payload without throwing; a JSON parse failure of the arguments
synthesizes an error payload without calling the function; otherwise invoke
positionally, canonicalize and truncate on success, or synthesize an error
payload when the callable throws. The returned slot reflects any write the
callable performed. -/
def execCall (maxLen : Option Nat) (tools : List RegTool) (slot : Option JValue)
    (tc : ToolCallInfo) : ToolResultInfo × Option JValue :=
  match tools.find? (fun t => t.name == tc.name) with
  | none =>
    (⟨tc.id, tc.name, errorPayload ("Unknown tool: " ++ tc.name)⟩, slot)
  | some tool =>
    match tc.arguments with
    | .error m =>
      (⟨tc.id, tc.name, errorPayload ("Invalid JSON arguments: " ++ m)⟩, slot)
    | .ok input =>
      match tool.impl (mapArguments tool.propKeys input) slot with
      | (.ok ret, slot') =>
        (⟨tc.id, tc.name, truncateResult maxLen (canonicalizeResult ret)⟩, slot')
      | (.error msg, slot') =>
        (⟨tc.id, tc.name, errorPayload msg⟩, slot')

/-- Sequential execution of one round-trip's batch of tool calls
(src/executor.ts lines 276-353): calls run one after another in response
order, results are collected in the same order, and the slot is threaded
through. -/
def execBatch (maxLen : Option Nat) (tools : List RegTool) :
    Option JValue → List ToolCallInfo → List ToolResultInfo × Option JValue
  | slot, [] => ([], slot)
  | slot, tc :: rest =>
    let r := execCall maxLen tools slot tc
    let t := execBatch maxLen tools r.2 rest
    (r.1 :: t.1, t.2)

-- ===========================================================================
-- Structured-output store (src/store.ts, createStore)
-- ===========================================================================

/-- Object reconstruction inside a store's callable (src/store.ts lines
160-165): walk the schema's `properties` keys in declared order and assign
each present (non-`undefined`) positional argument; positions beyond the
argument list are skipped like `undefined` ones (`List.zip` truncates
exactly as the `i < args.length` guard does). -/
def buildObj (propKeys : List String) (args : List (Option JValue)) :
    List (String × JValue) :=
  (propKeys.zip args).filterMap (fun p => p.2.map (fun v => (p.1, v)))

/-- The body of a store's callable (src/store.ts lines 158-171): reconstruct
the object, validate it with the bound schema's `parse`; on success write
the parsed value into the slot and return the fixed acknowledgement, on
failure rethrow and leave the slot untouched. -/
def storeFn (propKeys : List String) (parse : JValue → Except String JValue)
    (args : List (Option JValue)) (slot : Option JValue) :
    Except String String × Option JValue :=
  match parse (.obj (buildObj propKeys args)) with
  | .ok v => (.ok "Value stored successfully", some v)
  | .error e => (.error e, slot)

/-- A store registered as a tool (`createStore`, src/store.ts lines
147-187): the tool's `propKeys` are the schema's `properties` keys and the
callable is `storeFn`; the returned acknowledgement string flows through
the normal result path. -/
def storeTool (name : String) (propKeys : List String)
    (parse : JValue → Except String JValue) : RegTool where
  name := name
  propKeys := propKeys
  impl := fun args slot =>
    match storeFn propKeys parse args slot with
    | (.ok s, slot') => (.ok (.value (.str s)), slot')
    | (.error e, slot') => (.error e, slot')

-- ===========================================================================
-- The conversation loop (src/executor.ts, runToolLoop)
-- ===========================================================================

/-- One model response as produced by `provider.parseResponse`: the
accumulated text content and the raw (unfiltered) tool calls. -/
structure Response where
  content : String
  toolCalls : List ToolCallInfo
deriving Repr

/-- A history entry appended by the loop. The loop delegates the concrete
wire shape to `provider.formatAssistantMessage` / `formatToolResults`; this
model records the information those formatters receive, one entry per
assistant turn and one per tool result. -/
inductive LoopMsg where
  | assistant (content : String) (toolCalls : List ToolCallInfo)
  | toolResult (r : ToolResultInfo)

/-- A fatal loop error (the loop throws; recoverable conditions never reach
this type). `transport` stands for the fetch/HTTP-status/timeout family,
carrying the thrown message; `maxIterations` is iteration exhaustion with
the configured cap. -/
inductive LoopError where
  | transport (msg : String)
  | maxIterations (n : Nat)
deriving Repr, DecidableEq

/-- The message carried by each fatal error; iteration exhaustion throws
`new Error('Max iterations (n) reached without completion')`
(src/executor.ts line 369). -/
def renderError : LoopError → String
  | .transport m => m
  | .maxIterations n => "Max iterations (" ++ toString n ++ ") reached without completion"

/-- The loop's outcome. `text` is the terminal tool-free turn (the
`content as T` return, src/executor.ts line 272), `stored` is the
store-driven early exit (line 362), `failure` a thrown error. The final
message history is part of any successful outcome. The schema-validation
branch of the terminal turn (lines 252-269) concerns none of the verified
claims and is not modelled; `text` stands for the no-schema return. -/
inductive LoopOutcome where
  | text (content : String) (messages : List LoopMsg)
  | stored (v : JValue) (messages : List LoopMsg)
  | failure (e : LoopError)

/-- Loop-relevant configuration: the iteration cap (`undefined` = none =
unbounded), the tool-result truncation limit, and whether a structured
output store was passed (`returnStore !== undefined`). -/
structure LoopParams where
  maxIterations : Option Nat
  maxToolResultLength : Option Nat
  hasStore : Bool

/-- The `while` guard (src/executor.ts line 197):
`maxIterations === undefined || iterations < maxIterations`. -/
def capOk : Option Nat → Nat → Bool
  | some n, it => it < n
  | none, _ => true

/-- The filter applied to parsed tool calls before dispatch
(src/executor.ts line 244): `tc.id && tc.name` — both must be non-empty
strings (empty strings are falsy). -/
def isCompleteCall (tc : ToolCallInfo) : Bool :=
  (tc.id != "") && (tc.name != "")

/-- The usable tool calls of a response: incomplete ones are dropped. -/
def completeCalls (r : Response) : List ToolCallInfo :=
  r.toolCalls.filter isCompleteCall

/-- The tool loop (src/executor.ts lines 195-370), driven by a script: the
list of responses the transport delivers, one per round-trip (an exhausted
script plays the role of a transport failure, which the loop would also
propagate). Each round-trip: re-check the cap; filter incomplete calls; a
call-free response is the terminal turn; otherwise execute the whole batch
sequentially, append the assistant turn and all results to history, then —
only if a store is configured — return its slot's value if it became
non-empty; otherwise count the iteration and continue. When the guard
stops the loop, `maxIterations` is necessarily `some n` (the guard is
always true for `none`), which the `getD` retrieves. -/
def runToolLoopAux (p : LoopParams) (tools : List RegTool) :
    List Response → Nat → List LoopMsg → Option JValue → LoopOutcome
  | script, it, msgs, slot =>
    if capOk p.maxIterations it then
      match script with
      | [] => .failure (.transport "fetch failed: response script exhausted")
      | r :: rest =>
        let calls := completeCalls r
        if calls.isEmpty then
          .text r.content (msgs ++ [LoopMsg.assistant r.content []])
        else
          let step := execBatch p.maxToolResultLength tools slot calls
          let msgs' := msgs ++ [LoopMsg.assistant r.content calls]
            ++ step.1.map LoopMsg.toolResult
          if p.hasStore then
            match step.2 with
            | some v => .stored v msgs'
            | none => runToolLoopAux p tools rest (it + 1) msgs' step.2
          else
            runToolLoopAux p tools rest (it + 1) msgs' step.2
    else
      .failure (.maxIterations (p.maxIterations.getD 0))

/-- Entry point of the loop: `iterations = 0`, a fresh (empty) store slot,
and the initial message history already assembled. -/
def runToolLoop (p : LoopParams) (tools : List RegTool) (script : List Response)
    (initialMsgs : List LoopMsg) : LoopOutcome :=
  runToolLoopAux p tools script 0 initialMsgs none

-- ===========================================================================
-- Provider adapters: response parsing (src/providers/*.ts)
-- ===========================================================================

/-- A tool call at the provider-parsing level, before the executor parses
the `arguments` JSON: id, name and the raw argument string. -/
structure RawToolCall where
  id : String
  name : String
  arguments : String
deriving Repr, DecidableEq

/-- In-place list update at an index (JS `xs[i] = ...` on an existing
index); out-of-range indices leave the list unchanged. -/
def listModify : List α → Nat → (α → α) → List α
  | [], _, _ => []
  | x :: rest, 0, f => f x :: rest
  | x :: rest, n + 1, f => x :: listModify rest n f

/-- The expression `typeof a === 'string' ? a : JSON.stringify(a || {})`
shared verbatim by the Anthropic (`tool_use` blocks) and Ollama
(`tool_calls` entries) adapters: a string input passes through, any other
value is stringified, with falsy values replaced by `{}` first, and a
missing input also stringifies to `"{}"`. -/
def wireArgsString (a : Option JValue) : String :=
  match a with
  | some (.str s) => s
  | some v => if jsTruthy v then stringify v else stringify (.obj [])
  | none => stringify (.obj [])

-- ---------------------------------------------------------------------------
-- OpenAI adapter (src/providers/openai.ts)
-- ---------------------------------------------------------------------------

/-- A tool call in an OpenAI non-streaming choice:
`{id, type:'function', function:{name, arguments}}` flattened to the three
fields the parser reads. -/
structure OpenAIWireToolCall where
  id : String
  name : String
  arguments : String
deriving Repr, DecidableEq

/-- `choice.message` of a non-streaming OpenAI body. -/
structure OpenAIChoiceMessage where
  content : Option String
  tool_calls : Option (List OpenAIWireToolCall)
deriving Repr, DecidableEq

/-- One entry of `data.choices`. -/
structure OpenAIChoice where
  message : OpenAIChoiceMessage
deriving Repr, DecidableEq

/-- A non-streaming OpenAI response body, as far as `parseResponse`
reads it. -/
structure OpenAIBody where
  choices : Option (List OpenAIChoice)
deriving Repr, DecidableEq

/-- The non-streaming path of `OpenAIProvider.parseResponse`
(src/providers/openai.ts lines 158-188): `data.choices?.[0]` missing is the
fatal `'No response from LLM'`; otherwise content defaults to `''` and the
wire tool calls are converted. -/
def OpenAIProvider.parseResponseSync (data : OpenAIBody) :
    Except String (String × List RawToolCall) :=
  match data.choices.bind List.head? with
  | none => .error "No response from LLM"
  | some choice =>
    .ok (choice.message.content.getD "",
      (choice.message.tool_calls.getD []).map
        (fun tc => ⟨tc.id, tc.name, tc.arguments⟩))

/-- `delta.tool_calls[i].function` of a streamed OpenAI chunk. -/
structure OpenAIDeltaFn where
  name : Option String
  arguments : Option String
deriving Repr, DecidableEq

/-- One accreting tool-call delta: the provider-assigned `index` keys the
accumulator slot (`?? 0` when absent). -/
structure OpenAIDeltaToolCall where
  index : Option Nat
  id : Option String
  function : Option OpenAIDeltaFn
deriving Repr, DecidableEq

/-- `choices[0].delta` of a streamed chunk. The `thinking`/reasoning fields
only feed the observer event channel and carry no loop-visible state, so
they are not modelled. -/
structure OpenAIDelta where
  content : Option String
  tool_calls : Option (List OpenAIDeltaToolCall)
deriving Repr, DecidableEq

/-- One entry of a streamed chunk's `choices`. -/
structure OpenAIChunkChoice where
  delta : Option OpenAIDelta
deriving Repr, DecidableEq

/-- One parsed SSE `data:` frame of an OpenAI stream. -/
structure OpenAIChunk where
  choices : Option (List OpenAIChunkChoice)
deriving Repr, DecidableEq

/-- The empty accumulator slot `{id:'', name:'', arguments:''}`. A JS array
hole behaves identically: creating the slot as this empty record and then
running the update lines gives the same result as the source's
initialize-then-update, because the initializer `{id: tc.id || '', name:
tc.function?.name || '', arguments: ''}` is exactly one update applied to
the empty record. -/
def emptyAccCall : RawToolCall := ⟨"", "", ""⟩

/-- Grow the accumulator array so that index `idx` exists (JS assignment
past the end; intermediate holes behave as empty slots, see
`emptyAccCall`). -/
def padToIndex (l : List RawToolCall) (idx : Nat) : List RawToolCall :=
  if idx < l.length then l else l ++ List.replicate (idx + 1 - l.length) emptyAccCall

/-- Streaming accretion of one tool-call delta
(src/providers/openai.ts lines 138-152): deltas are keyed by `index`
(default 0); a truthy `id` or `function.name` overwrites, and
`function.arguments` fragments are concatenated in arrival order. -/
def accreteToolCallDelta (arr : List RawToolCall) (tc : OpenAIDeltaToolCall) :
    List RawToolCall :=
  let idx := tc.index.getD 0
  listModify (padToIndex arr idx) idx (fun cur =>
    let cur := match tc.id with
      | some s => if s != "" then { cur with id := s } else cur
      | none => cur
    let cur := match tc.function.bind (fun f => f.name) with
      | some s => if s != "" then { cur with name := s } else cur
      | none => cur
    match tc.function.bind (fun f => f.arguments) with
      | some s => if s != "" then { cur with arguments := cur.arguments ++ s } else cur
      | none => cur)

/-- The streaming path of `OpenAIProvider.parseResponse`
(src/providers/openai.ts lines 118-157): fold over the parsed SSE frames,
skipping frames without `choices[0].delta`, concatenating truthy content
deltas in arrival order, and accreting tool-call deltas by index. This path
contains no `throw` — it returns whatever accreted, however empty. -/
def OpenAIProvider.parseResponseStream (chunks : List OpenAIChunk) :
    Except String (String × List RawToolCall) :=
  .ok (chunks.foldl (fun acc ch =>
    match ch.choices.bind List.head? with
    | none => acc
    | some choice =>
      match choice.delta with
      | none => acc
      | some delta =>
        let acc1 := match delta.content with
          | some c => if c != "" then (acc.1 ++ c, acc.2) else acc
          | none => acc
        match delta.tool_calls with
        | some tcs => (acc1.1, tcs.foldl accreteToolCallDelta acc1.2)
        | none => acc1) ("", []))

-- ---------------------------------------------------------------------------
-- Anthropic adapter (src/providers/anthropic.ts)
-- ---------------------------------------------------------------------------

/-- One content block of a non-streaming Anthropic body: a `type` tag and
the fields the parser reads from `text` and `tool_use` blocks. -/
structure AnthropicBlock where
  type : String
  text : Option String
  id : Option String
  name : Option String
  input : Option JValue
deriving Repr

/-- A non-streaming Anthropic response body, as far as `parseResponse`
reads it. -/
structure AnthropicBody where
  content : Option (List AnthropicBlock)
deriving Repr

/-- The non-streaming path of `AnthropicProvider.parseResponse`
(src/providers/anthropic.ts lines 205-236): a missing `content` array is
the fatal `'No response from LLM'`; otherwise text blocks with truthy text
concatenate and `tool_use` blocks become tool calls (`id`/`name` default to
`''`, the input serializes via `wireArgsString`). -/
def AnthropicProvider.parseResponseSync (data : AnthropicBody) :
    Except String (String × List RawToolCall) :=
  match data.content with
  | none => .error "No response from LLM"
  | some blocks =>
    .ok (blocks.foldl (fun acc b =>
      if b.type == "text" then
        match b.text with
        | some t => if t != "" then (acc.1 ++ t, acc.2) else acc
        | none => acc
      else if b.type == "tool_use" then
        (acc.1, acc.2 ++ [⟨b.id.getD "", b.name.getD "", wireArgsString b.input⟩])
      else acc) ("", []))

/-- `content_block` of a `content_block_start` event. -/
structure AnthropicBlockStart where
  type : String
  id : Option String
  name : Option String
deriving Repr, DecidableEq

/-- A `content_block_delta` payload: text, thinking (observer-only, state
irrelevant but kept for the dispatch shape) or an `input_json_delta`
fragment (`partial_json`, which may legitimately be the empty string — the
source checks `!== undefined`, not truthiness). -/
inductive AnthropicDelta where
  | textDelta (text : Option String)
  | thinkingDelta (thinking : Option String)
  | inputJsonDelta (inputJson : Option String)
  | otherDelta
deriving Repr, DecidableEq

/-- One named SSE event of an Anthropic stream. -/
inductive AnthropicEvent where
  | contentBlockStart (block : Option AnthropicBlockStart)
  | contentBlockDelta (delta : Option AnthropicDelta)
  | contentBlockStop
  | messageStop
  | otherEvent
deriving Repr, DecidableEq

/-- The accumulating state of the Anthropic streaming parser: content so
far, tool calls so far, and `currentToolIndex` (`none` models the `-1`
sentinel). -/
structure AnthropicStreamState where
  content : String
  toolCalls : List RawToolCall
  currentToolIndex : Option Nat
deriving Repr, DecidableEq

/-- One step of the Anthropic streaming parser
(src/providers/anthropic.ts lines 166-200): a `tool_use` block start opens
a new accumulator slot and points `currentToolIndex` at it; text deltas
concatenate; `input_json_delta` fragments append to the current slot's
arguments; `content_block_stop` resets the index. -/
def anthropicStreamStep (st : AnthropicStreamState) (e : AnthropicEvent) :
    AnthropicStreamState :=
  match e with
  | .contentBlockStart (some bl) =>
    if bl.type == "tool_use" then
      { st with currentToolIndex := some st.toolCalls.length,
                toolCalls := st.toolCalls ++ [⟨bl.id.getD "", bl.name.getD "", ""⟩] }
    else st
  | .contentBlockStart none => st
  | .contentBlockDelta (some (.textDelta (some t))) =>
    if t != "" then { st with content := st.content ++ t } else st
  | .contentBlockDelta (some (.textDelta none)) => st
  | .contentBlockDelta (some (.thinkingDelta _)) => st
  | .contentBlockDelta (some (.inputJsonDelta (some s))) =>
    match st.currentToolIndex with
    | some i =>
      { st with toolCalls :=
          listModify st.toolCalls i (fun c => { c with arguments := c.arguments ++ s }) }
    | none => st
  | .contentBlockDelta (some (.inputJsonDelta none)) => st
  | .contentBlockDelta (some .otherDelta) => st
  | .contentBlockDelta none => st
  | .contentBlockStop => { st with currentToolIndex := none }
  | .messageStop => st
  | .otherEvent => st

/-- The streaming path of `AnthropicProvider.parseResponse`
(src/providers/anthropic.ts lines 162-204): fold the events; no `throw`
exists on this path — it returns whatever accreted, however empty. -/
def AnthropicProvider.parseResponseStream (events : List AnthropicEvent) :
    Except String (String × List RawToolCall) :=
  let st := events.foldl anthropicStreamStep ⟨"", [], none⟩
  .ok (st.content, st.toolCalls)

-- ---------------------------------------------------------------------------
-- Ollama adapter (src/providers/ollama.ts)
-- ---------------------------------------------------------------------------

/-- `tool_calls[i].function` of an Ollama message: optional name and
optional arguments (a string or an object, covered by `JValue`). -/
structure OllamaWireFn where
  name : Option String
  arguments : Option JValue
deriving Repr

/-- One entry of an Ollama message's `tool_calls`. -/
structure OllamaWireToolCall where
  function : Option OllamaWireFn
deriving Repr

/-- `data.message` (non-streaming) or `chunk.message` (streaming) of an
Ollama response. -/
structure OllamaResponseMessage where
  content : Option String
  tool_calls : Option (List OllamaWireToolCall)
deriving Repr

/-- A non-streaming Ollama response body. -/
structure OllamaBody where
  message : Option OllamaResponseMessage
deriving Repr

/-- Conversion of Ollama wire tool calls, appending to the accumulated
list: ids are loop-assigned as `ollama_` plus the index in the overall
tool-call list (src/providers/ollama.ts lines 186-196 and 216-226). -/
def ollamaPushCalls (acc : List RawToolCall) (tcs : List OllamaWireToolCall) :
    List RawToolCall :=
  tcs.foldl (fun acc tc =>
    acc ++ [⟨"ollama_" ++ toString acc.length,
            (tc.function.bind (fun f => f.name)).getD "",
            wireArgsString (tc.function.bind (fun f => f.arguments))⟩]) acc

/-- The non-streaming path of `OllamaProvider.parseResponse`
(src/providers/ollama.ts lines 205-231): a missing `message` is the fatal
`'No response from LLM'`; otherwise content defaults to `''` and the tool
calls are converted. -/
def OllamaProvider.parseResponseSync (data : OllamaBody) :
    Except String (String × List RawToolCall) :=
  match data.message with
  | none => .error "No response from LLM"
  | some m =>
    .ok (m.content.getD "",
      match m.tool_calls with
      | some tcs => ollamaPushCalls [] tcs
      | none => [])

/-- One NDJSON line of an Ollama stream after `JSON.parse`: the `done` flag
(absent = false) and the optional message. A line that is blank or fails to
parse is modelled as `none` (both are skipped with `continue`). -/
structure OllamaStreamChunk where
  done : Bool
  message : Option OllamaResponseMessage
deriving Repr

/-- Processing of the lines of one transport read
(src/providers/ollama.ts lines 169-199): skipped lines are `none`; a chunk
contributes its truthy content and its tool calls; a truthy `done` breaks
out of the line loop of this read (only — the outer read loop goes on). -/
def ollamaProcessLines (acc : String × List RawToolCall) :
    List (Option OllamaStreamChunk) → String × List RawToolCall
  | [] => acc
  | none :: rest => ollamaProcessLines acc rest
  | some ch :: rest =>
    let acc' := match ch.message with
      | some m =>
        let acc1 := match m.content with
          | some c => if c != "" then (acc.1 ++ c, acc.2) else acc
          | none => acc
        match m.tool_calls with
        | some tcs => (acc1.1, ollamaPushCalls acc1.2 tcs)
        | none => acc1
      | none => acc
    if ch.done then acc' else ollamaProcessLines acc' rest

/-- The streaming path of `OllamaProvider.parseResponse`
(src/providers/ollama.ts lines 155-204): fold the reads delivered by the
transport, each carrying its parsed lines (the `TextDecoder`/buffer line
splitting is transport plumbing below this model). No `throw` exists on
this path — it returns whatever accreted, however empty. -/
def OllamaProvider.parseResponseStream
    (reads : List (List (Option OllamaStreamChunk))) :
    Except String (String × List RawToolCall) :=
  .ok (reads.foldl ollamaProcessLines ("", []))

-- ===========================================================================
-- Provider adapters: request building (src/providers/*.ts, buildRequest)
-- ===========================================================================

/-- One part of a multi-part prompt content (src/types.ts `ContentPart`). -/
inductive ContentPart where
  | text (text : String)
  | imageUrl (url : String)
deriving Repr, DecidableEq

/-- Prompt content: a plain string, or content parts when images are
present (src/types.ts `PromptContent`). -/
inductive PromptContent where
  | str (s : String)
  | parts (ps : List ContentPart)
deriving Repr, DecidableEq

/-- The spread `[...xs]`: a fresh array holding the same elements. The
original array is a distinct object and is untouched by whatever is done to
the copy — in this state-passing model, mutation of an array is expressed
by returning its updated value, so copying returns the same list while the
caller keeps its own. -/
def jsArrayCopy (l : List α) : List α := l

/-- `xs.unshift(x)`: prepend in place. In the state-passing model the
updated array is the returned value; the `buildRequest` embeddings apply it
to the fresh copy only, and return the caller's array unchanged as the
second component. -/
def jsUnshift (x : α) (l : List α) : List α := x :: l

/-- An OpenAI-format chat message, as far as request building is concerned
(src/providers/openai.ts `OpenAIMessage`). -/
inductive OpenAIMessage where
  | system (content : PromptContent)
  | user (content : PromptContent)
  | assistant (content : Option String) (toolCalls : List RawToolCall)
  | tool (toolCallId : String) (content : String)
deriving Repr, DecidableEq

/-- The parts of an OpenAI request relevant to message handling: the URL,
the auth header, and the body's `messages`. The remaining body fields
(`model`, `stream`, `temperature`, `max_tokens`, `tools`,
`response_format`) never touch the message history and are outside the
verified claims. -/
structure OpenAIRequest where
  url : String
  authHeader : Option String
  bodyMessages : List OpenAIMessage
deriving Repr, DecidableEq

/-- `OpenAIProvider.buildRequest` (src/providers/openai.ts lines 30-73),
restricted to its message handling: copy the caller's history
(`[...params.messages]`), unshift a system message onto the copy when a
system prompt is configured, and put the result in the body. The second
component is the caller's `params.messages` array after the call: the
source mutates only the copy, so it is returned as it came in. -/
def OpenAIProvider.buildRequest (apiUrl : String) (apiKey : Option String)
    (history : List OpenAIMessage) (systemPrompt : Option PromptContent) :
    OpenAIRequest × List OpenAIMessage :=
  let url := apiUrl ++ "/chat/completions"
  let auth := match apiKey with
    | some k => if k != "" then some ("Bearer " ++ k) else none
    | none => none
  let messages := jsArrayCopy history
  let messages := match systemPrompt with
    | some sp => jsUnshift (OpenAIMessage.system sp) messages
    | none => messages
  (⟨url, auth, messages⟩, history)

/-- An Ollama chat message, as far as request building is concerned
(src/providers/ollama.ts `OllamaMessage`; the system content is plain
text). -/
inductive OllamaMessage where
  | system (content : String)
  | user (content : String) (images : List String)
  | assistant (content : String) (toolCalls : List RawToolCall)
  | tool (content : String)
deriving Repr, DecidableEq

/-- The message-relevant parts of an Ollama request (no auth header;
`model`, `stream`, `options`, `format`, `tools` never touch the message
history). -/
structure OllamaRequest where
  url : String
  bodyMessages : List OllamaMessage
deriving Repr, DecidableEq

/-- `extractText` (src/providers/ollama.ts lines 59-65): keep the text
parts of a multi-part content and join them. -/
def extractText : PromptContent → String
  | .str s => s
  | .parts ps =>
    String.join (ps.filterMap (fun p => match p with
      | .text t => some t
      | _ => none))

/-- `OllamaProvider.buildRequest` (src/providers/ollama.ts lines 68-101),
restricted to its message handling: same copy-then-unshift discipline as
the OpenAI adapter, with the system prompt reduced to its text. -/
def OllamaProvider.buildRequest (apiUrl : String)
    (history : List OllamaMessage) (systemPrompt : Option PromptContent) :
    OllamaRequest × List OllamaMessage :=
  let url := apiUrl ++ "/api/chat"
  let messages := jsArrayCopy history
  let messages := match systemPrompt with
    | some sp => jsUnshift (OllamaMessage.system (extractText sp)) messages
    | none => messages
  (⟨url, messages⟩, history)

/-- The Anthropic `system` body field: a plain string, or the list of
text blocks extracted from multi-part content
(src/providers/anthropic.ts lines 70-81). -/
inductive AnthropicSystem where
  | str (s : String)
  | blocks (texts : List String)
deriving Repr, DecidableEq

/-- Translation of the configured system prompt into the dedicated `system`
body field: strings pass through; from content parts only the text parts
survive (images were separated earlier in the pipeline). -/
def anthropicSystemOf : PromptContent → AnthropicSystem
  | .str s => .str s
  | .parts ps =>
    .blocks (ps.filterMap (fun p => match p with
      | .text t => some t
      | _ => none))

/-- The message-relevant parts of an Anthropic request. Anthropic has no
leading system message: the system prompt lives in the dedicated
`system` body field. `α` is the wire message type, which `buildRequest`
never inspects. -/
structure AnthropicRequest (α : Type) where
  url : String
  apiKeyHeader : Option String
  bodyMessages : List α
  bodySystem : Option AnthropicSystem
deriving Repr, DecidableEq

/-- `AnthropicProvider.buildRequest` (src/providers/anthropic.ts lines
51-104), restricted to its message handling: the body references the
caller's history as it is (`messages: params.messages` — no copy, and no
mutation either), and the system prompt goes into the dedicated `system`
field. The second component is the caller's array after the call. -/
def AnthropicProvider.buildRequest {α : Type} (apiUrl : String)
    (apiKey : Option String) (history : List α)
    (systemPrompt : Option PromptContent) :
    AnthropicRequest α × List α :=
  let url := apiUrl ++ "/messages"
  let keyHeader := match apiKey with
    | some k => if k != "" then some k else none
    | none => none
  (⟨url, keyHeader, history, systemPrompt.map anthropicSystemOf⟩, history)

-- ===========================================================================
-- Specification-side predicates for the simple-schema characterization
-- ===========================================================================

/-- Specification-side predicate (stated, not taken from the source): a
declared field passes the simple-schema parser iff its property is a
string, or the field is optional and the property is absent or `null`. -/
def simpleFieldOk (obj : List (String × JValue)) (f : SimpleField) : Bool :=
  match jlookup obj f.cleanKey with
  | some (.str _) => true
  | none => f.optional
  | some .null => f.optional
  | some _ => false

/-- Specification-side: the result entry a declared field contributes on
success (string properties are copied, everything else is dropped). -/
def simpleFieldEntry (obj : List (String × JValue)) (f : SimpleField) :
    Option (String × String) :=
  match jlookup obj f.cleanKey with
  | some (.str s) => some (f.cleanKey, s)
  | _ => none

/-- Specification-side: the error message the parser raises at a failing
field (the string case is unreachable for failing fields). -/
def simpleFieldErr (obj : List (String × JValue)) (f : SimpleField) : String :=
  match jlookup obj f.cleanKey with
  | some (.str _) => ""
  | none => "Missing required field: \"" ++ f.cleanKey ++ "\""
  | some .null => "Missing required field: \"" ++ f.cleanKey ++ "\""
  | some v => "Field \"" ++ f.cleanKey ++ "\" must be a string, got " ++ jsTypeof v

-- ===========================================================================
-- Theorems
-- ===========================================================================

/-- **C1.** For every tool call dispatched by the loop whose arguments
string parses as a JSON object, the registered callable is invoked
positionally with arguments taken in the declared parameter order of its
metadata's `properties` keys, independent of the key order in the
model-supplied JSON: with declared order `(first, second, third)` and
arguments `{"third":"C","first":"A","second":"B"}`, the callable receives
`(A, B, C)`; keys absent from the JSON yield `undefined` at their
position. The first conjunct is key-order independence (any two argument
objects agreeing as key-value maps on the declared keys dispatch
identically), the middle conjuncts are the spec's example and the
absent-key rule, and the last shows the dispatcher invokes the callable on
exactly `mapArguments` of the declared key order. -/
theorem positional_mapping_c1 :
    (∀ (propKeys : List String) (f1 f2 : List (String × JValue)),
      (∀ k ∈ propKeys, jlookup f1 k = jlookup f2 k) →
      mapArguments propKeys (.obj f1) = mapArguments propKeys (.obj f2)) ∧
    (mapArguments ["first", "second", "third"]
      (.obj [("third", .str "C"), ("first", .str "A"), ("second", .str "B")]) =
      [some (.str "A"), some (.str "B"), some (.str "C")]) ∧
    (mapArguments ["first", "second", "third"] (.obj [("first", .str "A")]) =
      [some (.str "A"), none, none]) ∧
    (∀ (t : RegTool) (maxLen : Option Nat) (slot : Option JValue)
       (id : String) (input : JValue),
      execCall maxLen [t] slot ⟨id, t.name, .ok input⟩ =
        match t.impl (mapArguments t.propKeys input) slot with
        | (.ok ret, slot') =>
          (⟨id, t.name, truncateResult maxLen (canonicalizeResult ret)⟩, slot')
        | (.error msg, slot') => (⟨id, t.name, errorPayload msg⟩, slot')) := by
  refine ⟨?_, by rfl, by rfl, ?_⟩
  · intro propKeys f1 f2 h
    exact List.map_congr_left (fun k hk => by simp [jsGet, h k hk])
  · intro t maxLen slot id input
    simp [execCall]

/-- Witness for C1: the example argument object against itself reordered —
the two key orders dispatch identically. -/
theorem positional_mapping_c1_witness :
    mapArguments ["first", "second"]
      (.obj [("second", .str "B"), ("first", .str "A")]) =
    mapArguments ["first", "second"]
      (.obj [("first", .str "A"), ("second", .str "B")]) :=
  positional_mapping_c1.1 ["first", "second"]
    [("second", .str "B"), ("first", .str "A")]
    [("first", .str "A"), ("second", .str "B")]
    (by intro k hk; fin_cases hk <;> rfl)

/-- **C4.** Invoking a store created by `createStore` reconstructs an object
by mapping positional arguments onto its schema's `properties` key order
(skipping `undefined` arguments), validates it with the bound schema's
parse function, on success writes the parsed value into the slot and
returns the fixed string `'Value stored successfully'`, and on validation
failure throws, leaving the slot unchanged. -/
theorem store_write_c4 :
    (∀ (propKeys : List String) (parse : JValue → Except String JValue)
       (args : List (Option JValue)) (slot : Option JValue) (v : JValue),
      parse (.obj (buildObj propKeys args)) = .ok v →
      storeFn propKeys parse args slot = (.ok "Value stored successfully", some v)) ∧
    (∀ (propKeys : List String) (parse : JValue → Except String JValue)
       (args : List (Option JValue)) (slot : Option JValue) (e : String),
      parse (.obj (buildObj propKeys args)) = .error e →
      storeFn propKeys parse args slot = (.error e, slot)) ∧
    (∀ (a c : JValue),
      buildObj ["a", "b", "c"] [some a, none, some c] = [("a", a), ("c", c)]) := by
  refine ⟨?_, ?_, fun a c => rfl⟩
  · intro propKeys parse args slot v h
    simp [storeFn, h]
  · intro propKeys parse args slot e h
    simp [storeFn, h]

/-- Witness for C4: a trivially-validating schema stores the reconstructed
object and acknowledges; a trivially-rejecting schema leaves a filled slot
untouched. -/
theorem store_write_c4_witness :
    storeFn ["a"] (fun v => .ok v) [some (.str "x")] none =
      (.ok "Value stored successfully", some (.obj [("a", .str "x")])) ∧
    storeFn ["a"] (fun _ => .error "boom") [some (.str "x")] (some (.str "old")) =
      (.error "boom", some (.str "old")) :=
  ⟨store_write_c4.1 ["a"] (fun v => .ok v) [some (.str "x")] none
      (.obj [("a", .str "x")]) rfl,
   store_write_c4.2.1 ["a"] (fun _ => .error "boom") [some (.str "x")]
      (some (.str "old")) "boom" rfl⟩

/-- **C8.** The loop canonicalizes every successfully returned tool value to
a string: `undefined`/`null` become the sentinel `"OK"`; a string passes
through untouched; a sync or async iterable (other than a string or an
array) is first fully drained into an array; any remaining non-string
value is JSON-stringified — a generator yielding 1,2,3 canonicalizes to
`"[1,2,3]"` and `{key:"value"}` to `'{"key":"value"}'`. -/
theorem canonicalization_c8 :
    canonicalizeResult .undef = "OK" ∧
    canonicalizeResult (.value .null) = "OK" ∧
    (∀ s, canonicalizeResult (.value (.str s)) = s) ∧
    (∀ items, resolveIterableResult (.syncIter items) = .value (.arr items)) ∧
    (∀ items, resolveIterableResult (.asyncIter items) = .value (.arr items)) ∧
    (∀ items, canonicalizeResult (.syncIter items) = stringify (.arr items)) ∧
    (∀ items, canonicalizeResult (.asyncIter items) = stringify (.arr items)) ∧
    (∀ n, canonicalizeResult (.value (.num n)) = stringify (.num n)) ∧
    (∀ b, canonicalizeResult (.value (.bool b)) = stringify (.bool b)) ∧
    (∀ xs, canonicalizeResult (.value (.arr xs)) = stringify (.arr xs)) ∧
    (∀ fs, canonicalizeResult (.value (.obj fs)) = stringify (.obj fs)) ∧
    canonicalizeResult (.syncIter [.num 1, .num 2, .num 3]) = "[1,2,3]" ∧
    canonicalizeResult (.asyncIter [.num 1, .num 2, .num 3]) = "[1,2,3]" ∧
    canonicalizeResult (.value (.str "hello")) = "hello" ∧
    canonicalizeResult (.value (.obj [("key", .str "value")])) =
      "\x7b\"key\":\"value\"\x7d" := by
  exact ⟨rfl, rfl, fun s => rfl, fun items => rfl, fun items => rfl,
    fun items => rfl, fun items => rfl, fun n => rfl, fun b => rfl,
    fun xs => rfl, fun fs => rfl, rfl, rfl, rfl, rfl⟩

/-- **C10.** No provider's `buildRequest` mutates the history array passed
to it: the OpenAI and Ollama adapters prepend the system message on a
fresh copy and the Anthropic adapter places the system prompt in the
dedicated `system` body field, so the caller's array keeps its length and
elements after every call — which is what keeps the system prompt from
being duplicated into history across loop iterations. -/
theorem buildRequest_no_mutation_c10 :
    (∀ u k h sp, (OpenAIProvider.buildRequest u k h sp).2 = h) ∧
    (∀ u k h sp, (OpenAIProvider.buildRequest u k h (some sp)).1.bodyMessages =
      OpenAIMessage.system sp :: h) ∧
    (∀ u k h, (OpenAIProvider.buildRequest u k h none).1.bodyMessages = h) ∧
    (∀ u h sp, (OllamaProvider.buildRequest u h sp).2 = h) ∧
    (∀ u h sp, (OllamaProvider.buildRequest u h (some sp)).1.bodyMessages =
      OllamaMessage.system (extractText sp) :: h) ∧
    (∀ u h, (OllamaProvider.buildRequest u h none).1.bodyMessages = h) ∧
    (∀ (α : Type) u k (h : List α) sp,
      (AnthropicProvider.buildRequest u k h sp).2 = h) ∧
    (∀ (α : Type) u k (h : List α) sp,
      (AnthropicProvider.buildRequest u k h sp).1.bodyMessages = h) ∧
    (∀ (α : Type) u k (h : List α) sp,
      (AnthropicProvider.buildRequest u k h (some sp)).1.bodySystem =
        some (anthropicSystemOf sp)) := by
  exact ⟨fun u k h sp => rfl, fun u k h sp => rfl, fun u k h => rfl,
    fun u h sp => rfl, fun u h sp => rfl, fun u h => rfl,
    fun α u k h sp => rfl, fun α u k h sp => rfl, fun α u k h sp => rfl⟩

/-- **C5 (counterexample).** The claim says the streaming path, too, fails
with an explicit error when the response contains no usable content; but
the OpenAI streaming parser contains no such check: a stream carrying no
usable choice/content at all (here: no frames whatsoever) parses
successfully to empty content — it is not distinguished from an
empty-but-valid answer. -/
theorem envelope_error_c5_counterexample :
    OpenAIProvider.parseResponseStream [] = .ok ("", []) := by rfl

/-- **C5 (amended).** For every provider adapter, the *non-streaming* path
of `parseResponse` fails with the explicit error `'No response from LLM'`
exactly when the response contains no usable choice/content at all
(OpenAI: no first choice; Anthropic: no content array; Ollama: no
message), and this failure is distinct from an empty-but-valid answer,
which returns empty content without error; the streaming paths perform no
such check and return whatever content accreted — possibly empty —
without error. -/
theorem envelope_error_c5 :
    (∀ data, OpenAIProvider.parseResponseSync data = .error "No response from LLM" ↔
      data.choices.bind List.head? = none) ∧
    (∀ data, AnthropicProvider.parseResponseSync data = .error "No response from LLM" ↔
      data.content = none) ∧
    (∀ data, OllamaProvider.parseResponseSync data = .error "No response from LLM" ↔
      data.message = none) ∧
    (OpenAIProvider.parseResponseSync ⟨some [⟨⟨none, none⟩⟩]⟩ = .ok ("", [])) ∧
    (AnthropicProvider.parseResponseSync ⟨some []⟩ = .ok ("", [])) ∧
    (OllamaProvider.parseResponseSync ⟨some ⟨none, none⟩⟩ = .ok ("", [])) ∧
    (∀ chunks, ∃ v, OpenAIProvider.parseResponseStream chunks = .ok v) ∧
    (∀ events, ∃ v, AnthropicProvider.parseResponseStream events = .ok v) ∧
    (∀ reads, ∃ v, OllamaProvider.parseResponseStream reads = .ok v) := by
  refine ⟨?_, ?_, ?_, by rfl, by rfl, by rfl, ?_, ?_, ?_⟩
  · intro data
    rcases h : data.choices.bind List.head? with _ | choice <;>
      simp [OpenAIProvider.parseResponseSync, h]
  · intro data
    rcases h : data.content with _ | blocks <;>
      simp [AnthropicProvider.parseResponseSync, h]
  · intro data
    rcases h : data.message with _ | m <;>
      simp [OllamaProvider.parseResponseSync, h]
  · exact fun chunks => ⟨_, rfl⟩
  · exact fun events => ⟨_, rfl⟩
  · exact fun reads => ⟨_, rfl⟩

/-- **C3.** After a tool-execution batch, if a structured-output store is
active and its slot is non-empty, the loop returns the stored value
immediately — regardless of what the rest of the conversation script would
have produced and even though the turn's calls did not stop — and the
check happens only after the whole batch has been executed and appended to
history: the returned history already contains this round-trip's assistant
turn and every one of its tool results. -/
theorem store_early_exit_c3 :
    ∀ (p : LoopParams) (tools : List RegTool) (r : Response) (rest : List Response)
      (it : Nat) (msgs : List LoopMsg) (slot : Option JValue) (v : JValue),
      p.hasStore = true →
      capOk p.maxIterations it = true →
      (completeCalls r).isEmpty = false →
      (execBatch p.maxToolResultLength tools slot (completeCalls r)).2 = some v →
      runToolLoopAux p tools (r :: rest) it msgs slot =
        .stored v (msgs ++ [LoopMsg.assistant r.content (completeCalls r)]
          ++ (execBatch p.maxToolResultLength tools slot (completeCalls r)).1.map
              LoopMsg.toolResult) := by
  intro p tools r rest it msgs slot v hstore hcap hcalls hslot
  rw [runToolLoopAux]
  simp [hcap, hcalls, hstore, hslot]

/-- Witness for C3: a batch whose first call fills the store (via the
store's own tool) and whose second call is still executed (here: an
unknown tool, yielding its error payload in history) ends the loop with
the stored value even though the script had a further round-trip queued. -/
theorem store_early_exit_c3_witness :
    runToolLoopAux ⟨some 5, none, true⟩
      [storeTool "store_value_1" ["a"] (fun v => .ok v)]
      (⟨"", [⟨"call_1", "store_value_1", .ok (.obj [("a", .str "x")])⟩,
             ⟨"call_2", "other_tool", .ok (.obj [])⟩]⟩ ::
       [⟨"never reached", []⟩]) 0 [] none =
      .stored (.obj [("a", .str "x")])
        ([] ++ [LoopMsg.assistant ""
            (completeCalls ⟨"", [⟨"call_1", "store_value_1", .ok (.obj [("a", .str "x")])⟩,
                                 ⟨"call_2", "other_tool", .ok (.obj [])⟩]⟩)]
          ++ (execBatch none [storeTool "store_value_1" ["a"] (fun v => .ok v)] none
               (completeCalls ⟨"", [⟨"call_1", "store_value_1", .ok (.obj [("a", .str "x")])⟩,
                                    ⟨"call_2", "other_tool", .ok (.obj [])⟩]⟩)).1.map
              LoopMsg.toolResult) :=
  store_early_exit_c3 ⟨some 5, none, true⟩
    [storeTool "store_value_1" ["a"] (fun v => .ok v)]
    ⟨"", [⟨"call_1", "store_value_1", .ok (.obj [("a", .str "x")])⟩,
          ⟨"call_2", "other_tool", .ok (.obj [])⟩]⟩
    [⟨"never reached", []⟩] 0 [] none (.obj [("a", .str "x")])
    rfl rfl rfl rfl

/-- Helper: a batch consisting entirely of calls that match no registered
tool synthesizes exactly one error payload per call, in order, and leaves
the store slot untouched. -/
theorem execBatch_unknown (maxLen : Option Nat) (tools : List RegTool) :
    ∀ (calls : List ToolCallInfo) (slot : Option JValue),
      calls.all (fun tc => (tools.find? (fun t => t.name == tc.name)).isNone) = true →
      execBatch maxLen tools slot calls =
        (calls.map (fun tc =>
          (⟨tc.id, tc.name, errorPayload ("Unknown tool: " ++ tc.name)⟩ : ToolResultInfo)),
         slot) := by
  intro calls
  induction calls with
  | nil => intro slot _; rfl
  | cons tc rest ih =>
    intro slot h
    rw [List.all_cons, Bool.and_eq_true] at h
    have hfind : tools.find? (fun t => t.name == tc.name) = none :=
      Option.isNone_iff_eq_none.mp h.1
    rw [execBatch]
    simp [execCall, hfind, ih slot h.2]

/-- **C7.** A dispatched tool call whose name matches no registered tool
does not make the loop throw: dispatch synthesizes exactly one
error-shaped result (the JSON string `{"error":"Unknown tool: <name>"}`)
correlated to the call's id and leaves the slot alone; and a round-trip
whose calls are all unknown appends the assistant turn plus those payloads
to history and continues to the next round-trip instead of aborting. -/
theorem unknown_tool_c7 :
    (∀ (maxLen : Option Nat) (tools : List RegTool) (slot : Option JValue)
       (tc : ToolCallInfo),
      tools.find? (fun t => t.name == tc.name) = none →
      execCall maxLen tools slot tc =
        (⟨tc.id, tc.name, errorPayload ("Unknown tool: " ++ tc.name)⟩, slot)) ∧
    (errorPayload "Unknown tool: missing_tool" =
      "\x7b\"error\":\"Unknown tool: missing_tool\"\x7d") ∧
    (∀ (p : LoopParams) (tools : List RegTool) (r : Response) (rest : List Response)
       (it : Nat) (msgs : List LoopMsg) (slot : Option JValue),
      p.hasStore = false →
      capOk p.maxIterations it = true →
      (completeCalls r).isEmpty = false →
      (completeCalls r).all
        (fun tc => (tools.find? (fun t => t.name == tc.name)).isNone) = true →
      runToolLoopAux p tools (r :: rest) it msgs slot =
        runToolLoopAux p tools rest (it + 1)
          (msgs ++ [LoopMsg.assistant r.content (completeCalls r)]
            ++ (completeCalls r).map (fun tc =>
                LoopMsg.toolResult
                  ⟨tc.id, tc.name, errorPayload ("Unknown tool: " ++ tc.name)⟩))
          slot) := by
  refine ⟨?_, by rfl, ?_⟩
  · intro maxLen tools slot tc hfind
    simp [execCall, hfind]
  · intro p tools r rest it msgs slot hstore hcap hcalls hunknown
    rw [runToolLoopAux]
    simp [hcap, hcalls, hstore, execBatch_unknown p.maxToolResultLength tools _ slot hunknown,
      Function.comp_def]

/-- Witness for C7: with no registered tools, a round-trip requesting
`missing_tool` continues into the next round-trip carrying the synthesized
error payload in history. -/
theorem unknown_tool_c7_witness :
    runToolLoopAux ⟨some 5, none, false⟩ []
      (⟨"", [⟨"call_1", "missing_tool", .ok (.obj [])⟩]⟩ :: [⟨"done", []⟩]) 0 [] none =
      runToolLoopAux ⟨some 5, none, false⟩ [] [⟨"done", []⟩] (0 + 1)
        ([] ++ [LoopMsg.assistant ""
            (completeCalls ⟨"", [⟨"call_1", "missing_tool", .ok (.obj [])⟩]⟩)]
          ++ (completeCalls ⟨"", [⟨"call_1", "missing_tool", .ok (.obj [])⟩]⟩).map
              (fun tc => LoopMsg.toolResult
                ⟨tc.id, tc.name, errorPayload ("Unknown tool: " ++ tc.name)⟩))
        none :=
  unknown_tool_c7.2.2 ⟨some 5, none, false⟩ []
    ⟨"", [⟨"call_1", "missing_tool", .ok (.obj [])⟩]⟩ [⟨"done", []⟩]
    0 [] none rfl rfl rfl rfl

/-- **C2.** The iteration cap counts full request/response round-trips
inclusively: with cap `n`, a script whose first `n` responses each request
at least one (complete) tool call drives the loop through exactly those
`n` round-trips and then into the iteration-exhaustion error — whatever
the script holds beyond them — and that error's message names the cap;
with no cap configured the loop never raises iteration exhaustion (it can
only end on a tool-free response, the store filling, or an error). -/
theorem iteration_cap_c2 :
    (∀ (p : LoopParams) (tools : List RegTool) (n : Nat) (s₁ s₂ : List Response),
      ∀ (it : Nat) (msgs : List LoopMsg) (slot : Option JValue),
      p.maxIterations = some n → p.hasStore = false →
      it + s₁.length = n →
      s₁.all (fun r => !(completeCalls r).isEmpty) = true →
      runToolLoopAux p tools (s₁ ++ s₂) it msgs slot = .failure (.maxIterations n)) ∧
    (∀ n, renderError (.maxIterations n) =
      "Max iterations (" ++ toString n ++ ") reached without completion") ∧
    (∀ (p : LoopParams) (tools : List RegTool) (script : List Response)
       (it : Nat) (msgs : List LoopMsg) (slot : Option JValue) (n : Nat),
      p.maxIterations = none →
      runToolLoopAux p tools script it msgs slot ≠ .failure (.maxIterations n)) := by
  refine ⟨?_, fun n => rfl, ?_⟩
  · intro p tools n s₁ s₂
    induction s₁ with
    | nil =>
      intro it msgs slot hmi _hstore hlen _hall
      have hit : it = n := by simpa using hlen
      subst hit
      rw [List.nil_append, runToolLoopAux.eq_def, hmi]
      simp [capOk]
    | cons r s₁' ih =>
      intro it msgs slot hmi hstore hlen hall
      rw [List.cons_append, runToolLoopAux, hmi]
      have hcap : capOk (some n) it = true := by
        simp only [capOk, decide_eq_true_eq]
        simp only [List.length_cons] at hlen
        omega
      rw [List.all_cons, Bool.and_eq_true] at hall
      have hne : (completeCalls r).isEmpty = false := by simpa using hall.1
      simp only [hcap, if_true, hne, Bool.false_eq_true, if_false, hstore]
      exact ih (it + 1) _ _ hmi hstore
        (by simp only [List.length_cons] at hlen; omega) hall.2
  · intro p tools script
    induction script with
    | nil =>
      intro it msgs slot n hmi
      rw [runToolLoopAux, hmi]
      simp [capOk]
    | cons r rest ih =>
      intro it msgs slot n hmi
      rw [runToolLoopAux, hmi]
      simp only [capOk, if_true]
      by_cases hc : (completeCalls r).isEmpty
      · simp [hc]
      · simp only [hc, Bool.false_eq_true, if_false]
        cases hs : p.hasStore
        · simpa [hs] using ih _ _ _ n hmi
        · rcases h2 : (execBatch p.maxToolResultLength tools slot (completeCalls r)).2
            with _ | v
          · simpa [hs, h2] using ih _ _ _ n hmi
          · simp [hs, h2]

/-- Witness for C2: cap 2 with a script of two self-perpetuating
round-trips exhausts after exactly those two and the rendered message
names the cap. -/
theorem iteration_cap_c2_witness :
    runToolLoopAux ⟨some 2, none, false⟩ []
      ([⟨"again", [⟨"call_1", "loop_tool", .ok (.obj [])⟩]⟩,
        ⟨"again", [⟨"call_2", "loop_tool", .ok (.obj [])⟩]⟩] ++
       [⟨"never reached", []⟩]) 0 [] none =
      .failure (.maxIterations 2) ∧
    renderError (.maxIterations 2) = "Max iterations (2) reached without completion" :=
  ⟨iteration_cap_c2.1 ⟨some 2, none, false⟩ [] 2
    [⟨"again", [⟨"call_1", "loop_tool", .ok (.obj [])⟩]⟩,
     ⟨"again", [⟨"call_2", "loop_tool", .ok (.obj [])⟩]⟩]
    [⟨"never reached", []⟩] 0 [] none rfl rfl rfl rfl,
   iteration_cap_c2.2.1 2⟩

/-- **C6.** Tool calls whose id or name is missing (empty) are silently
dropped before dispatch: the loop on a response carrying the raw calls
behaves exactly as on the same response with only its complete calls — no
error, no synthesized result, no history entry for the dropped ones — and
a call survives the filter exactly when both its id and its name are
non-empty. -/
theorem incomplete_calls_dropped_c6 :
    (∀ (p : LoopParams) (tools : List RegTool) (content : String)
       (raw : List ToolCallInfo) (rest : List Response) (it : Nat)
       (msgs : List LoopMsg) (slot : Option JValue),
      runToolLoopAux p tools (⟨content, raw⟩ :: rest) it msgs slot =
      runToolLoopAux p tools (⟨content, raw.filter isCompleteCall⟩ :: rest) it msgs slot) ∧
    (∀ (r : Response) (tc : ToolCallInfo),
      tc ∈ completeCalls r ↔ tc ∈ r.toolCalls ∧ tc.id ≠ "" ∧ tc.name ≠ "") := by
  constructor
  · intro p tools content raw rest it msgs slot
    have hfilter : ∀ (l : List ToolCallInfo),
        (l.filter isCompleteCall).filter isCompleteCall = l.filter isCompleteCall := by
      intro l
      induction l with
      | nil => rfl
      | cons x xs ihx =>
        by_cases hx : isCompleteCall x <;> simp [List.filter_cons, hx, ihx]
    have h : completeCalls ⟨content, raw.filter isCompleteCall⟩ = completeCalls ⟨content, raw⟩ := by
      simp only [completeCalls]
      exact hfilter raw
    rw [runToolLoopAux, runToolLoopAux, h]
  · intro r tc
    simp [completeCalls, List.mem_filter, isCompleteCall, and_assoc]

/-- **C9 (counterexample).** The claim says a non-string value for *any*
declared key is a validation failure; but the parser treats `null` exactly
like an absent property, so a `null`-valued optional key is accepted (and
dropped from the result) rather than rejected. -/
theorem simple_schema_c9_counterexample :
    createSimpleSchemaParser [("req", "the required field"), ("opt?", "the optional field")]
      (.obj [("req", .str "x"), ("opt", .null)]) = .ok [("req", "x")] := by rfl

/-- Helper: the simple-schema field loop succeeds iff every declared field
passes `simpleFieldOk`. -/
theorem simpleParseFields_ok_iff (obj : List (String × JValue)) :
    ∀ (fields : List SimpleField),
      (∃ r, simpleParseFields obj fields = .ok r) ↔
      ∀ f ∈ fields, simpleFieldOk obj f = true := by
  intro fields
  induction fields with
  | nil => simp [simpleParseFields]
  | cons f fs ih =>
    rw [List.forall_mem_cons, ← ih]
    rcases hl : jlookup obj f.cleanKey with _ | v
    · cases ho : f.optional
      · simp [simpleParseFields, hl, simpleFieldOk, ho]
      · simp [simpleParseFields, hl, simpleFieldOk, ho]
    · rcases v with _ | b | n | s | xs | flds
      · cases ho : f.optional
        · simp [simpleParseFields, hl, simpleFieldOk, ho]
        · simp [simpleParseFields, hl, simpleFieldOk, ho]
      · simp [simpleParseFields, hl, simpleFieldOk]
      · simp [simpleParseFields, hl, simpleFieldOk]
      · rcases h : simpleParseFields obj fs with e | r'
        · simp [simpleParseFields, hl, simpleFieldOk, h, Except.map]
        · simp [simpleParseFields, hl, simpleFieldOk, h, Except.map]
      · simp [simpleParseFields, hl, simpleFieldOk]
      · simp [simpleParseFields, hl, simpleFieldOk]

/-- Helper: on success, the assembled result is exactly the string-valued
declared fields in declaration order — absent/`null` optional fields are
dropped, not padded. -/
theorem simpleParseFields_ok_val (obj : List (String × JValue)) :
    ∀ (fields : List SimpleField) (r : List (String × String)),
      simpleParseFields obj fields = .ok r →
      r = fields.filterMap (simpleFieldEntry obj) := by
  intro fields
  induction fields with
  | nil =>
    intro r h
    simp only [simpleParseFields] at h
    simp [← Except.ok.inj h]
  | cons f fs ih =>
    intro r h
    rw [simpleParseFields] at h
    rcases hl : jlookup obj f.cleanKey with _ | v
    · rw [hl] at h
      cases ho : f.optional
      · rw [ho] at h; simp at h
      · rw [ho] at h
        simp only [if_true] at h
        simp [List.filterMap_cons, simpleFieldEntry, hl, ih r h]
    · rcases v with _ | b | n | s | xs | flds
      · rw [hl] at h
        cases ho : f.optional
        · rw [ho] at h; simp at h
        · rw [ho] at h
          simp only [if_true] at h
          simp [List.filterMap_cons, simpleFieldEntry, hl, ih r h]
      · rw [hl] at h; simp at h
      · rw [hl] at h; simp at h
      · rw [hl] at h
        rcases hrec : simpleParseFields obj fs with e | r'
        · rw [hrec] at h; simp [Except.map] at h
        · rw [hrec] at h
          simp only [Except.map] at h
          have hr : r = (f.cleanKey, s) :: r' := (Except.ok.inj h).symm
          subst hr
          simp [List.filterMap_cons, simpleFieldEntry, hl, ih r' hrec]
      · rw [hl] at h; simp at h
      · rw [hl] at h; simp at h

/-- Helper: the parser raises the error of the *first* failing declared
field: `Missing required field: "k"` when the property is absent or
`null`, `Field "k" must be a string, got <typeof>` otherwise. -/
theorem simpleParseFields_first_err (obj : List (String × JValue)) :
    ∀ (fields : List SimpleField) (f : SimpleField),
      fields.find? (fun g => !(simpleFieldOk obj g)) = some f →
      simpleParseFields obj fields = .error (simpleFieldErr obj f) := by
  intro fields
  induction fields with
  | nil => intro f h; simp at h
  | cons f0 fs ih =>
    intro f h
    by_cases h0 : simpleFieldOk obj f0 = true
    · rw [List.find?_cons] at h
      rw [h0] at h
      simp only [Bool.not_true] at h
      rw [simpleParseFields]
      rcases hl : jlookup obj f0.cleanKey with _ | v
      · have ho : f0.optional = true := by
          simpa [simpleFieldOk, hl] using h0
        rw [ho]
        simpa using ih f h
      · rcases v with _ | b | n | s | xs | flds
        · have ho : f0.optional = true := by
            simpa [simpleFieldOk, hl] using h0
          rw [ho]
          simpa using ih f h
        · simp [simpleFieldOk, hl] at h0
        · simp [simpleFieldOk, hl] at h0
        · rw [ih f h]; simp [Except.map]
        · simp [simpleFieldOk, hl] at h0
        · simp [simpleFieldOk, hl] at h0
    · rw [List.find?_cons] at h
      rw [Bool.not_eq_true] at h0
      rw [h0] at h
      simp only [Bool.not_false, Option.some.injEq] at h
      rw [← h]
      rw [simpleParseFields]
      rcases hl : jlookup obj f0.cleanKey with _ | v
      · have ho : f0.optional = false := by
          simpa [simpleFieldOk, hl] using h0
        rw [ho]
        simp [simpleFieldErr, hl]
      · rcases v with _ | b | n | s | xs | flds
        · have ho : f0.optional = false := by
            simpa [simpleFieldOk, hl] using h0
          rw [ho]
          simp [simpleFieldErr, hl]
        · simp [simpleFieldErr, hl]
        · simp [simpleFieldErr, hl]
        · simp [simpleFieldOk, hl] at h0
        · simp [simpleFieldErr, hl]
        · simp [simpleFieldErr, hl]

/-- **C9 (amended).** The parser produced by the resolver for a flat
string-map schema accepts exactly the non-array objects in which every
required key is present with a string value and every *present* declared
key holds a string or `null` — a `null` property is treated like an absent
one (fatal for required keys, silently dropped for optional keys), not as
a type error. Absent (or `null`) optional keys are dropped from the result
rather than replaced by a placeholder; a missing (or `null`) required key
is rejected with a message naming that field; `null`, arrays and
non-object top-level input are rejected; and a non-`null`, non-string
value for a declared key is a validation failure naming the field and the
offending `typeof`. -/
theorem simple_schema_c9 :
    (∀ simple, createSimpleSchemaParser simple .null = .error "Expected an object") ∧
    (∀ simple xs, createSimpleSchemaParser simple (.arr xs) = .error "Expected an object") ∧
    (∀ simple s, createSimpleSchemaParser simple (.str s) = .error "Expected an object") ∧
    (∀ simple n, createSimpleSchemaParser simple (.num n) = .error "Expected an object") ∧
    (∀ simple b, createSimpleSchemaParser simple (.bool b) = .error "Expected an object") ∧
    (∀ simple obj, (∃ r, createSimpleSchemaParser simple (.obj obj) = .ok r) ↔
      ∀ f ∈ simpleFields simple, simpleFieldOk obj f = true) ∧
    (∀ simple obj r, createSimpleSchemaParser simple (.obj obj) = .ok r →
      r = (simpleFields simple).filterMap (simpleFieldEntry obj)) ∧
    (∀ simple obj f,
      (simpleFields simple).find? (fun g => !(simpleFieldOk obj g)) = some f →
      createSimpleSchemaParser simple (.obj obj) = .error (simpleFieldErr obj f)) ∧
    (createSimpleSchemaParser [("req", "r"), ("opt?", "o")] (.obj [("req", .str "x")]) =
      .ok [("req", "x")]) ∧
    (createSimpleSchemaParser [("req", "r"), ("opt?", "o")] (.obj [("opt", .str "y")]) =
      .error "Missing required field: \"req\"") := by
  refine ⟨fun simple => rfl, fun simple xs => rfl, fun simple s => rfl,
    fun simple n => rfl, fun simple b => rfl, ?_, ?_, ?_, by rfl, by rfl⟩
  · intro simple obj
    exact simpleParseFields_ok_iff obj (simpleFields simple)
  · intro simple obj r h
    exact simpleParseFields_ok_val obj (simpleFields simple) r h
  · intro simple obj f h
    exact simpleParseFields_first_err obj (simpleFields simple) f h

/-- Witness for C9 (amended): a schema with one required field and an empty
input object fails on that first field with the missing-field message. -/
theorem simple_schema_c9_witness :
    createSimpleSchemaParser [("req", "r")] (.obj []) =
      .error (simpleFieldErr [] ⟨"req", false⟩) ∧
    createSimpleSchemaParser [("req", "r"), ("opt?", "o")] (.obj [("req", .str "x")]) =
      .ok ((simpleFields [("req", "r"), ("opt?", "o")]).filterMap
        (simpleFieldEntry [("req", .str "x")])) :=
  ⟨simple_schema_c9.2.2.2.2.2.2.2.1 [("req", "r")] [] ⟨"req", false⟩ rfl,
   by
    have h := simple_schema_c9.2.2.2.2.2.2.1 [("req", "r"), ("opt?", "o")]
      [("req", .str "x")] [("req", "x")] rfl
    rw [← h]; rfl⟩
